import Mathlib

/-!
# dohyo: a client for the Sumo Logic Search Job API

A shallow embedding of `auth.go` and `sumo.go`.

* Go pointers are `Option`s (`none` is the nil pointer); a dereference of nil is the
  outcome `Exec.panic`.
* A Go `(value, error)` pair is an `Except`; an `error` result is an `Option GoError`.
* The network is a parameter `Net`: what `http.NewRequest` says about a URL and what
  `http.Client.Do` answers to a request.
* A response body is the JSON text it carries, kept as a syntax tree (`BodyText`), together
  with the error, if any, that reading it reports.
* `encoding/json`, `encoding/base64`, `net/textproto` and `fmt` are modelled for the types and
  the verbs this package uses them with.
* The access id and the access key are byte sequences (a Go string is one), since
  `BasicAuthHeader` encodes their bytes; every other Go string is only copied, compared or
  concatenated and is a Lean `String`.
-/

namespace Dohyo

set_option autoImplicit false

/-! ## encoding/base64 -/

/-- The alphabet of `base64.StdEncoding`. -/
def encodeStd : String :=
  "ABCDEFGHIJKLMNOPQRSTUVWXYZabcdefghijklmnopqrstuvwxyz0123456789+/"

/-- The padding character of `base64.StdEncoding`. -/
def StdPadding : Char := '='

/-- The lookup `enc.encode[i]`; every index the encoder uses is below 64. -/
def encodeAt (i : Nat) : Char := encodeStd.data.getD i StdPadding

/-- The function `(*Encoding).Encode` of `base64.StdEncoding`: the loop over whole 3-byte groups
(`val := uint(src[si+0])<<16 | uint(src[si+1])<<8 | uint(src[si+2])`), then the remainder of
one or two bytes, padded. -/
def Encode : List UInt8 → List Char
  | a :: b :: c :: rest =>
    let val := (a.toNat <<< 16) ||| (b.toNat <<< 8) ||| c.toNat
    encodeAt ((val >>> 18) &&& 0x3F) :: encodeAt ((val >>> 12) &&& 0x3F) ::
      encodeAt ((val >>> 6) &&& 0x3F) :: encodeAt (val &&& 0x3F) :: Encode rest
  | [a, b] =>
    let val := (a.toNat <<< 16) ||| (b.toNat <<< 8)
    [encodeAt ((val >>> 18) &&& 0x3F), encodeAt ((val >>> 12) &&& 0x3F),
      encodeAt ((val >>> 6) &&& 0x3F), StdPadding]
  | [a] =>
    let val := a.toNat <<< 16
    [encodeAt ((val >>> 18) &&& 0x3F), encodeAt ((val >>> 12) &&& 0x3F), StdPadding, StdPadding]
  | [] => []

/-- The function `base64.StdEncoding.EncodeToString`. -/
def EncodeToString (src : List UInt8) : String := String.mk (Encode src)

/-! ### The standard padded base64 encoding, as RFC 4648 section 4 words it -/

/-- Bit `i` of `n` (bit 0 is the least significant). -/
def bitAt (n i : Nat) : Nat := n / 2 ^ i % 2

/-- The eight bits of a byte, most significant first. -/
def bitsOfByte (b : UInt8) : List Nat :=
  [bitAt b.toNat 7, bitAt b.toNat 6, bitAt b.toNat 5, bitAt b.toNat 4,
   bitAt b.toNat 3, bitAt b.toNat 2, bitAt b.toNat 1, bitAt b.toNat 0]

/-- The input as one stream of bits, left to right. -/
def bitsOfBytes : List UInt8 → List Nat
  | [] => []
  | b :: bs => bitsOfByte b ++ bitsOfBytes bs

/-- The number a group of six bits denotes, the first bit being the most significant. -/
def sextetValue (b0 b1 b2 b3 b4 b5 : Nat) : Nat :=
  32 * b0 + 16 * b1 + 8 * b2 + 4 * b3 + 2 * b4 + b5

/-- The bit stream cut into 6-bit groups; zero bits are added on the right of a short last
group. -/
def sextets : List Nat → List Nat
  | b0 :: b1 :: b2 :: b3 :: b4 :: b5 :: rest => sextetValue b0 b1 b2 b3 b4 b5 :: sextets rest
  | [b0, b1, b2, b3, b4] => [sextetValue b0 b1 b2 b3 b4 0]
  | [b0, b1, b2, b3] => [sextetValue b0 b1 b2 b3 0 0]
  | [b0, b1, b2] => [sextetValue b0 b1 b2 0 0 0]
  | [b0, b1] => [sextetValue b0 b1 0 0 0 0]
  | [b0] => [sextetValue b0 0 0 0 0 0]
  | [] => []

/-- The standard padded base64 encoding by its definition: each 6-bit group of the bit stream
is one character of the alphabet, and `=` characters fill the output up to a multiple of
four characters. -/
def base64Chars (bs : List UInt8) : List Char :=
  let cs := (sextets (bitsOfBytes bs)).map encodeAt
  cs ++ List.replicate ((4 - cs.length % 4) % 4) '='

/-- The bytes of a string constant (its UTF-8 encoding). -/
def bytesOf (s : String) : List UInt8 := s.toUTF8.data.toList

/-! ## net/textproto and net/http: headers and requests -/

/-- The token bytes of a header field name (`validHeaderFieldByte`). -/
def validHeaderFieldByte (c : Char) : Bool :=
  c.isAlphanum || "!#$%&\x27*+-.^_\x60|~".data.contains c

/-- The loop of `canonicalMIMEHeaderKey`: upper case for the first letter and for a letter after
a dash, lower case for the others. -/
def canonicalCase : Bool → List Char → List Char
  | _, [] => []
  | upper, c :: cs =>
    let c1 :=
      if upper && c.isLower then Char.ofNat (c.toNat - 32)
      else if !upper && c.isUpper then Char.ofNat (c.toNat + 32)
      else c
    c1 :: canonicalCase (c1 == '-') cs

/-- The function `textproto.CanonicalMIMEHeaderKey`: a key with a byte that is not a token
byte is returned unchanged. -/
def CanonicalMIMEHeaderKey (s : String) : String :=
  if s.data.all validHeaderFieldByte then String.mk (canonicalCase true s.data) else s

/-- The type `http.Header`, a `map[string][]string`, as an association list with one entry
for each key. -/
abbrev Header := List (String × List String)

/-- The map read `h[key]`: nil when the key is absent. -/
def Header.index (h : Header) (key : String) : List String :=
  (h.lookup key).getD []

/-- The map write `h[key] = values`. -/
def Header.assign : Header → String → List String → Header
  | [], key, values => [(key, values)]
  | (k, vs) :: h, key, values =>
    if k == key then (k, values) :: h else (k, vs) :: Header.assign h key values

/-- The method `Header.Add`: `h[key] = append(h[key], value)` at the canonical key. -/
def Header.Add (h : Header) (key value : String) : Header :=
  let k := CanonicalMIMEHeaderKey key
  h.assign k (h.index k ++ [value])

/-- The method `Header.Values`: all the values of a key. -/
def Header.Values (h : Header) (key : String) : List String :=
  h.index (CanonicalMIMEHeaderKey key)

/-! ## encoding/json: the text of a body -/

/-- A JSON number literal. A literal without fraction and exponent is kept by sign and
magnitude (`-0` is such a literal), any other literal as written. -/
inductive JNumber
  | integer (negative : Bool) (magnitude : Nat)
  | real (literal : String)
  deriving DecidableEq

/-- The literal as text. -/
def JNumber.text : JNumber → String
  | .integer negative magnitude => (if negative then "-" else "") ++ toString magnitude
  | .real literal => literal

/-- The call `strconv.ParseInt(s, 10, 64)` on a JSON number literal, and the overflow check of
the target type `int` (64 bits): a literal with a fraction or an exponent, or out of range, gives
no value. -/
def JNumber.parseInt : JNumber → Option Int
  | .integer negative magnitude =>
    let v : Int := if negative then -(magnitude : Int) else (magnitude : Int)
    if -9223372036854775808 ≤ v ∧ v ≤ 9223372036854775807 then some v else none
  | .real _ => none

/-- A JSON value. The members of an object are in the order of the text, duplicates included;
a string is the text after unquoting. -/
inductive Json
  | null
  | bool (b : Bool)
  | number (n : JNumber)
  | string (s : String)
  | array (elems : List Json)
  | object (members : List (String × Json))

/-- The name a JSON value has in the `Value` field of an `UnmarshalTypeError`. -/
def Json.kind : Json → String
  | .null => "null"
  | .bool _ => "bool"
  | .number _ => "number"
  | .string _ => "string"
  | .array _ => "array"
  | .object _ => "object"

/-- The bytes `ioutil.ReadAll` returns, or a `json.Decoder` reads, seen as JSON text. -/
inductive BodyText
  /-- One JSON value, with optional white space around it. -/
  | document (doc : Json)
  /-- A JSON value followed by more text that is not white space. -/
  | trailing (first : Json)
  /-- A text that does not start with a complete JSON value (the empty text is one). -/
  | invalid

/-- The errors of `encoding/json`: a `SyntaxError` (the text is not one JSON value) and an
`UnmarshalTypeError` (a JSON value of kind `value` met a Go value of type `goType`). -/
inductive JsonError
  | invalidText
  | unmarshalType (value : String) (goType : String)
  deriving DecidableEq

/-- The part of `decodeState` that outlives the decoding of a value: the first error saved. -/
structure decodeState where
  savedError : Option JsonError
  deriving DecidableEq

/-- The method `d.saveError`: only the first error is kept. -/
def decodeState.saveError (d : decodeState) (err : JsonError) : decodeState :=
  match d.savedError with
  | none => { savedError := some err }
  | some _ => d

/-- The function `json.Unmarshal(data, &v)` for a target decoded by `store`: `checkValid` rejects
a text that is not one JSON value before anything is stored; otherwise the value is stored and
the first saved error, if any, is returned. -/
def Unmarshal {σ : Type} (store : σ → Json → decodeState → σ × decodeState)
    (data : BodyText) (v : σ) : σ × Option JsonError :=
  match data with
  | .document doc =>
    let r := store v doc { savedError := none }
    (r.1, r.2.savedError)
  | .trailing _ => (v, some .invalidText)
  | .invalid => (v, some .invalidText)

/-! ### Struct fields -/

/-- The representative of a character under simple case folding, for the comparison with an
ASCII field name: an upper case ASCII letter folds to lower case, the Kelvin sign to `k` and
the long s to `s`. -/
def foldChar (c : Char) : Char :=
  if c.isUpper then Char.ofNat (c.toNat + 32)
  else if c.toNat = 0x212A then 'k'
  else if c.toNat = 0x17F then 's'
  else c

/-- The comparison `ff.equalFold(ff.nameBytes, key)` of a field name with a member name. -/
def equalFold (name key : String) : Bool :=
  name.data.map foldChar == key.data.map foldChar

/-- Position of the first name that satisfies `p`. -/
def firstIndex (p : String → Bool) : List String → Option Nat
  | [] => none
  | n :: ns => if p n then some 0 else (firstIndex p ns).map (· + 1)

/-- The field a member name selects in `d.object`: the field of exactly that name, and failing
that the first field, in declaration order, equal to it under case folding. -/
def fieldIndex (names : List String) (key : String) : Option Nat :=
  match firstIndex (· == key) names with
  | some i => some i
  | none => firstIndex (fun n => equalFold n key) names

/-- The loop of `d.object` over the members of a JSON object, for a struct target: each member in
turn is stored in the field its name selects. -/
def objectInto {σ : Type} (setField : σ → String → Json → decodeState → σ × decodeState) :
    List (String × Json) → σ → decodeState → σ × decodeState
  | [], v, d => (v, d)
  | (key, j) :: members, v, d =>
    let r := setField v key j d
    objectInto setField members r.1 r.2

/-! ### Targets -/

/-- A JSON value stored into a Go `string`: a string is assigned, null has no effect, anything
else is a type error and leaves the string as it is. -/
def storeString (v : String) (j : Json) (d : decodeState) : String × decodeState :=
  match j with
  | .null => (v, d)
  | .string s => (s, d)
  | other => (v, d.saveError (.unmarshalType other.kind "string"))

/-- A JSON value stored into a Go `string` kept as bytes. -/
def storeBytes (v : List UInt8) (j : Json) (d : decodeState) : List UInt8 × decodeState :=
  match j with
  | .null => (v, d)
  | .string s => (bytesOf s, d)
  | other => (v, d.saveError (.unmarshalType other.kind "string"))

/-- A JSON value stored into a Go `int`. -/
def storeInt (v : Int) (j : Json) (d : decodeState) : Int × decodeState :=
  match j with
  | .null => (v, d)
  | .number n =>
    match n.parseInt with
    | some i => (i, d)
    | none => (v, d.saveError (.unmarshalType ("number " ++ n.text) "int"))
  | other => (v, d.saveError (.unmarshalType other.kind "int"))

/-- A JSON value stored into a struct: the members of an object go to the fields, which keep
their value when no member selects them; null has no effect; anything else is a type error. -/
def storeStruct {σ : Type} (goType : String)
    (setField : σ → String → Json → decodeState → σ × decodeState)
    (v : σ) (j : Json) (d : decodeState) : σ × decodeState :=
  match j with
  | .null => (v, d)
  | .object members => objectInto setField members v d
  | other => (v, d.saveError (.unmarshalType other.kind goType))

/-- A JSON value stored through a settable pointer to a struct: null sets the pointer to nil; for
any other value `indirect` first allocates a zero struct when the pointer is nil, and the value
is then stored into the struct pointed to. -/
def storePointer {σ : Type} (goType : String) (zero : σ)
    (setField : σ → String → Json → decodeState → σ × decodeState)
    (p : Option σ) (j : Json) (d : decodeState) : Option σ × decodeState :=
  match j with
  | .null => (none, d)
  | other =>
    let r := storeStruct goType setField (p.getD zero) other d
    (some r.1, r.2)

/-- A Go `map[string]string` as an association list with one entry for each key. -/
abbrev StringMap := List (String × String)

/-- The map write `m[key] = value`. -/
def StringMap.assign : StringMap → String → String → StringMap
  | [], key, value => [(key, value)]
  | (k, v) :: m, key, value =>
    if k == key then (k, value) :: m else (k, v) :: StringMap.assign m key value

/-- The loop of `d.object` for a `map[string]string`: each member is decoded into a zero
element, which is then written at the member name, also after a type error. -/
def objectIntoStringMap : List (String × Json) → StringMap → decodeState → StringMap × decodeState
  | [], m, d => (m, d)
  | (key, j) :: members, m, d =>
    let r := storeString "" j d
    objectIntoStringMap members (m.assign key r.1) r.2

/-- A JSON value stored into a `map[string]string` (`none` is the nil map): null sets it to nil,
an object allocates the map when it is nil and adds its members. -/
def storeStringMap (m : Option StringMap) (j : Json) (d : decodeState) :
    Option StringMap × decodeState :=
  match j with
  | .null => (none, d)
  | .object members =>
    let r := objectIntoStringMap members (m.getD []) d
    (some r.1, r.2)
  | other => (m, d.saveError (.unmarshalType other.kind "map[string]string"))

/-- A Go slice: the array under it from its first element on (`cap` elements) and its length.
The elements of `backing` from index `len` on are not visible but are still there. -/
structure GoSlice (α : Type) where
  backing : List α
  len : Nat
  deriving DecidableEq

/-- The capacity of a slice. -/
def GoSlice.cap {α : Type} (s : GoSlice α) : Nat := s.backing.length

/-- The visible elements of a slice. -/
def GoSlice.toList {α : Type} (s : GoSlice α) : List α := s.backing.take s.len

/-- The nil slice. -/
def GoSlice.nil {α : Type} : GoSlice α := { backing := [], len := 0 }

/-- The loop of `d.array` for a slice target, at index `i`, as `encoding/json` had it when the
package was written (Go 1.14). When `i` reaches the capacity the
slice moves to a new array of capacity `cap + cap/2` (4 at least) that holds the visible
elements and zero values; when `i` reaches the length, the length becomes `i + 1`; the JSON
element is then decoded into the element at index `i` as it stands. After the last JSON element
the length is cut to `i`, and an empty JSON array leaves a new empty slice. -/
def arrayInto {α : Type} (zero : α) (store : α → Json → decodeState → α × decodeState) :
    List Json → Nat → GoSlice α → decodeState → GoSlice α × decodeState
  | [], i, v, d =>
    let v1 := if i < v.len then { v with len := i } else v
    let v2 := if i = 0 then { backing := [], len := 0 } else v1
    (v2, d)
  | j :: elems, i, v, d =>
    let v1 : GoSlice α :=
      if i ≥ v.cap then
        let newcap := if v.cap + v.cap / 2 < 4 then 4 else v.cap + v.cap / 2
        { backing := v.backing.take v.len ++ List.replicate (newcap - v.len) zero, len := v.len }
      else v
    let v2 : GoSlice α := if i ≥ v1.len then { v1 with len := i + 1 } else v1
    let r := store (v2.backing.getD i zero) j d
    arrayInto zero store elems (i + 1) { v2 with backing := v2.backing.set i r.1 } r.2

/-- A JSON value stored through a settable pointer to a slice: null sets the pointer to nil; for
any other value `indirect` first allocates a nil slice when the pointer is nil; an array is then
decoded into the slice, anything else is a type error. -/
def storeSlicePointer {α : Type} (goType : String) (zero : α)
    (store : α → Json → decodeState → α × decodeState)
    (p : Option (GoSlice α)) (j : Json) (d : decodeState) : Option (GoSlice α) × decodeState :=
  match j with
  | .null => (none, d)
  | .array elems =>
    let r := arrayInto zero store elems 0 (p.getD GoSlice.nil) d
    (some r.1, r.2)
  | other => (some (p.getD GoSlice.nil), d.saveError (.unmarshalType other.kind goType))

/-! ### Decoding into `interface{}` -/

/-- What `strconv` does with the `float64` a JSON number literal denotes is not computed here:
whether `ParseFloat` accepts the literal (it does not when the value is out of range) and how
`fmt` prints the number under `%v`. -/
structure Strconv where
  ParseFloatOk : JNumber → Bool
  FormatFloat : JNumber → String

/-- The Go values a JSON text decodes to in an `interface{}`. A `float64` is named by the
literal it was parsed from; a `map[string]interface{}` is an association list with one entry
for each key, sorted by key. -/
inductive GoValue
  | nil
  | bool (b : Bool)
  | float64 (literal : JNumber)
  | string (s : String)
  | slice (elems : List GoValue)
  | map (entries : List (String × GoValue))

/-- A Go `map[string]interface{}`. -/
abbrev InterfaceMap := List (String × GoValue)

/-- The order `<` of Go strings, which compares bytes; on UTF-8 text that is the order of the
code points. -/
def stringLess : List Char → List Char → Bool
  | _, [] => false
  | [], _ :: _ => true
  | a :: s, b :: t =>
    if a.toNat < b.toNat then true else if a.toNat = b.toNat then stringLess s t else false

/-- The map write `m[key] = value`; the entries are kept in the order of their keys, the order
in which `fmt` prints a map. -/
def InterfaceMap.assign : InterfaceMap → String → GoValue → InterfaceMap
  | [], key, value => [(key, value)]
  | (k, v) :: m, key, value =>
    if stringLess key.data k.data then (key, value) :: (k, v) :: m
    else if k = key then (k, value) :: m
    else (k, v) :: InterfaceMap.assign m key value

mutual
/-- The method `d.valueInterface`, and `d.value` on an empty `interface{}`: a number whose literal
`ParseFloat` rejects is a saved error and decodes to nil. -/
def valueInterface (sc : Strconv) : Json → decodeState → GoValue × decodeState
  | .null, d => (.nil, d)
  | .bool b, d => (.bool b, d)
  | .number n, d =>
    if sc.ParseFloatOk n then (.float64 n, d)
    else (.nil, d.saveError (.unmarshalType ("number " ++ n.text) "float64"))
  | .string s, d => (.string s, d)
  | .array elems, d =>
    let r := arrayInterface sc elems d
    (.slice r.1, r.2)
  | .object members, d =>
    let r := objectInterface sc members [] d
    (.map r.1, r.2)
/-- The method `d.arrayInterface`. -/
def arrayInterface (sc : Strconv) : List Json → decodeState → List GoValue × decodeState
  | [], d => ([], d)
  | j :: elems, d =>
    let r := valueInterface sc j d
    let rs := arrayInterface sc elems r.2
    (r.1 :: rs.1, rs.2)
/-- The method `d.objectInterface`, and the loop of `d.object` for a `map[string]interface{}`:
`m[key] = value` for each member in turn. -/
def objectInterface (sc : Strconv) :
    List (String × Json) → InterfaceMap → decodeState → InterfaceMap × decodeState
  | [], m, d => (m, d)
  | (key, j) :: members, m, d =>
    let r := valueInterface sc j d
    objectInterface sc members (m.assign key r.1) r.2
end

/-- The first JSON value of a text, which is what a `json.Decoder` reads from a stream. -/
def BodyText.first : BodyText → Option Json
  | .document doc => some doc
  | .trailing j => some j
  | .invalid => none

/-- The call `json.NewDecoder(body).Decode(&responseBody)` on a nil `map[string]interface{}`
(`none` is the nil map): the decoder takes the first JSON value of the stream, whatever follows
it; an object fills a new map, and with any other value, or without a value, the map stays nil.
The result is the map and the error of `Decode`. -/
def DecodeInterfaceMap (sc : Strconv) (data : BodyText) : Option InterfaceMap × Option JsonError :=
  match data.first with
  | none => (none, some .invalidText)
  | some .null => (none, none)
  | some (.object members) =>
    let r := objectInterface sc members [] { savedError := none }
    (some r.1, r.2.savedError)
  | some other => (none, some (.unmarshalType other.kind "map[string]interface {}"))

/-- The read `m[key]` of a `map[string]interface{}`: nil for the nil map and for an absent key. -/
def InterfaceMap.index (m : Option InterfaceMap) (key : String) : GoValue :=
  match m with
  | none => .nil
  | some entries => (entries.lookup key).getD .nil

/-! ## fmt -/

/-- Join of the printed elements of a slice or a map, a space between two of them. -/
def joinSpace : List String → String
  | [] => ""
  | [s] => s
  | s :: rest => s ++ " " ++ joinSpace rest

mutual
/-- The text `fmt` prints for an element of a slice or a map under the verb `%s`. -/
def printValueS (sc : Strconv) : GoValue → String
  | .nil => "<nil>"
  | .bool b => "%!s(bool=" ++ (if b then "true" else "false") ++ ")"
  | .float64 n => "%!s(float64=" ++ sc.FormatFloat n ++ ")"
  | .string s => s
  | .slice elems => "[" ++ joinSpace (printElemsS sc elems) ++ "]"
  | .map entries => "map[" ++ joinSpace (printEntriesS sc entries) ++ "]"
/-- The elements of a slice, printed. -/
def printElemsS (sc : Strconv) : List GoValue → List String
  | [] => []
  | v :: vs => printValueS sc v :: printElemsS sc vs
/-- The entries of a map, printed as `key:value`. -/
def printEntriesS (sc : Strconv) : List (String × GoValue) → List String
  | [] => []
  | (k, v) :: es => (k ++ ":" ++ printValueS sc v) :: printEntriesS sc es
end

/-- The text of `fmt.Sprintf("%s", v)` for the content `v` of an `interface{}`: a string is
printed as it is; nil, a bool and a number are not strings, and `fmt` prints them as a bad
verb. -/
def SprintfS (sc : Strconv) : GoValue → String
  | .nil => "%!s(<nil>)"
  | v => printValueS sc v

/-- A Go `error` of this package. `errorString text` is an error whose `Error()` is `text`;
`unmarshal cause` is `fmt.Errorf("could not unmarshal response body: %s", cause)` for the
error `cause` of `json.Unmarshal`. -/
inductive GoError
  | errorString (text : String)
  | unmarshal (cause : JsonError)
  deriving DecidableEq

/-! ## auth.go -/

/-- The struct `SumoLogicAuthModel`. -/
structure SumoLogicAuthModel where
  AccessID : List UInt8
  AccessKey : List UInt8
  deriving DecidableEq

/-- A request of `net/http`: method, URL, the parameters `encodeQuery` adds to the query of the
URL, header and body. -/
structure Request where
  Method : String
  URL : String
  Query : List (String × String)
  Header : Header
  Body : Option Json

/-- The method `BasicAuthHeader`. -/
def SumoLogicAuthModel.BasicAuthHeader (a : SumoLogicAuthModel) (r : Request) : Request :=
  let value := "Basic " ++ EncodeToString (a.AccessID ++ bytesOf ":" ++ a.AccessKey)
  { r with Header := r.Header.Add "Authorization" value }

/-! ## sumo.go: the data model -/

/-- The constant `pathSeparator`. -/
def pathSeparator : String := "/"

/-- The struct `SearchJobState`. -/
structure SearchJobState where
  ID : String
  State : String
  MessageCount : Int
  RecordCount : Int
  deriving DecidableEq

/-- The struct `SearchJobQuery`. -/
structure SearchJobQuery where
  Query : String
  From : String
  To : String
  TimeZone : String
  deriving DecidableEq

/-- The struct `SearchJobMessageRaw` (the field `Type_` is the field `Type` of the source). -/
structure SearchJobMessageRaw where
  MessageTime : String
  Host : String
  Type_ : String
  Log : String
  deriving DecidableEq

/-- The struct `SearchJobMessages`. -/
structure SearchJobMessages where
  Message : SearchJobMessageRaw
  deriving DecidableEq

/-- The struct `SumoObject`. -/
structure SumoObject where
  Auth : Option SumoLogicAuthModel
  HostURL : String
  QueryURL : String
  Headers : Option StringMap
  SearchJobQuery : Option SearchJobQuery
  SearchJobState : Option SearchJobState
  SearchJobMessage : Option (GoSlice SearchJobMessages)
  deriving DecidableEq

/-- The method `GenerateAndPutAuthModel`. -/
def SumoObject.GenerateAndPutAuthModel (o : SumoObject) (id key : List UInt8) : SumoObject :=
  { o with Auth := some { AccessID := id, AccessKey := key } }

/-! ### How `encoding/json` sees the structs -/

/-- The JSON names of the fields of `SumoLogicAuthModel` (no tags: the Go names). -/
def SumoLogicAuthModel.fieldNames : List String := ["AccessID", "AccessKey"]

/-- One member of a JSON object stored into a `SumoLogicAuthModel`. -/
def SumoLogicAuthModel.setField (v : SumoLogicAuthModel) (key : String) (j : Json)
    (d : decodeState) : SumoLogicAuthModel × decodeState :=
  match fieldIndex SumoLogicAuthModel.fieldNames key with
  | some 0 => let r := storeBytes v.AccessID j d; ({ v with AccessID := r.1 }, r.2)
  | some 1 => let r := storeBytes v.AccessKey j d; ({ v with AccessKey := r.1 }, r.2)
  | _ => (v, d)

/-- The JSON names of the fields of `SearchJobState`. -/
def SearchJobState.fieldNames : List String := ["id", "state", "messageCount", "recordCount"]

/-- One member of a JSON object stored into a `SearchJobState`. -/
def SearchJobState.setField (v : SearchJobState) (key : String) (j : Json) (d : decodeState) :
    SearchJobState × decodeState :=
  match fieldIndex SearchJobState.fieldNames key with
  | some 0 => let r := storeString v.ID j d; ({ v with ID := r.1 }, r.2)
  | some 1 => let r := storeString v.State j d; ({ v with State := r.1 }, r.2)
  | some 2 => let r := storeInt v.MessageCount j d; ({ v with MessageCount := r.1 }, r.2)
  | some 3 => let r := storeInt v.RecordCount j d; ({ v with RecordCount := r.1 }, r.2)
  | _ => (v, d)

/-- The zero `SearchJobState`. -/
def SearchJobState.zero : SearchJobState :=
  { ID := "", State := "", MessageCount := 0, RecordCount := 0 }

/-- The JSON names of the fields of `SearchJobQuery`. -/
def SearchJobQuery.fieldNames : List String := ["query", "from", "to", "timeZone"]

/-- One member of a JSON object stored into a `SearchJobQuery`. -/
def SearchJobQuery.setField (v : SearchJobQuery) (key : String) (j : Json) (d : decodeState) :
    SearchJobQuery × decodeState :=
  match fieldIndex SearchJobQuery.fieldNames key with
  | some 0 => let r := storeString v.Query j d; ({ v with Query := r.1 }, r.2)
  | some 1 => let r := storeString v.From j d; ({ v with From := r.1 }, r.2)
  | some 2 => let r := storeString v.To j d; ({ v with To := r.1 }, r.2)
  | some 3 => let r := storeString v.TimeZone j d; ({ v with TimeZone := r.1 }, r.2)
  | _ => (v, d)

/-- The JSON names of the fields of `SearchJobMessageRaw`. -/
def SearchJobMessageRaw.fieldNames : List String :=
  ["_messagetime", "_sourcehost", "_sourcename", "_raw"]

/-- One member of a JSON object stored into a `SearchJobMessageRaw`. -/
def SearchJobMessageRaw.setField (v : SearchJobMessageRaw) (key : String) (j : Json)
    (d : decodeState) : SearchJobMessageRaw × decodeState :=
  match fieldIndex SearchJobMessageRaw.fieldNames key with
  | some 0 => let r := storeString v.MessageTime j d; ({ v with MessageTime := r.1 }, r.2)
  | some 1 => let r := storeString v.Host j d; ({ v with Host := r.1 }, r.2)
  | some 2 => let r := storeString v.Type_ j d; ({ v with Type_ := r.1 }, r.2)
  | some 3 => let r := storeString v.Log j d; ({ v with Log := r.1 }, r.2)
  | _ => (v, d)

/-- The JSON names of the fields of `SearchJobMessages`. -/
def SearchJobMessages.fieldNames : List String := ["map"]

/-- One member of a JSON object stored into a `SearchJobMessages`. -/
def SearchJobMessages.setField (v : SearchJobMessages) (key : String) (j : Json)
    (d : decodeState) : SearchJobMessages × decodeState :=
  match fieldIndex SearchJobMessages.fieldNames key with
  | some 0 =>
    let r := storeStruct "dohyo.SearchJobMessageRaw" SearchJobMessageRaw.setField v.Message j d
    ({ v with Message := r.1 }, r.2)
  | _ => (v, d)

/-- The zero `SearchJobMessages`. -/
def SearchJobMessages.zero : SearchJobMessages :=
  { Message := { MessageTime := "", Host := "", Type_ := "", Log := "" } }

/-- A JSON value stored into an element of a `[]SearchJobMessages`. -/
def SearchJobMessages.store (v : SearchJobMessages) (j : Json) (d : decodeState) :
    SearchJobMessages × decodeState :=
  storeStruct "dohyo.SearchJobMessages" SearchJobMessages.setField v j d

/-- The JSON names of the fields of `SumoObject`: the Go names, and `messages` for
`SearchJobMessage` by its tag. -/
def SumoObject.fieldNames : List String :=
  ["Auth", "HostURL", "QueryURL", "Headers", "SearchJobQuery", "SearchJobState", "messages"]

/-- One member of a JSON object stored into a `SumoObject`. -/
def SumoObject.setField (o : SumoObject) (key : String) (j : Json) (d : decodeState) :
    SumoObject × decodeState :=
  match fieldIndex SumoObject.fieldNames key with
  | some 0 =>
    let r := storePointer "dohyo.SumoLogicAuthModel" { AccessID := [], AccessKey := [] }
      SumoLogicAuthModel.setField o.Auth j d
    ({ o with Auth := r.1 }, r.2)
  | some 1 => let r := storeString o.HostURL j d; ({ o with HostURL := r.1 }, r.2)
  | some 2 => let r := storeString o.QueryURL j d; ({ o with QueryURL := r.1 }, r.2)
  | some 3 => let r := storeStringMap o.Headers j d; ({ o with Headers := r.1 }, r.2)
  | some 4 =>
    let r := storePointer "dohyo.SearchJobQuery" { Query := "", From := "", To := "", TimeZone := "" }
      SearchJobQuery.setField o.SearchJobQuery j d
    ({ o with SearchJobQuery := r.1 }, r.2)
  | some 5 =>
    let r := storePointer "dohyo.SearchJobState" SearchJobState.zero SearchJobState.setField
      o.SearchJobState j d
    ({ o with SearchJobState := r.1 }, r.2)
  | some 6 =>
    let r := storeSlicePointer "[]dohyo.SearchJobMessages" SearchJobMessages.zero
      SearchJobMessages.store o.SearchJobMessage j d
    ({ o with SearchJobMessage := r.1 }, r.2)
  | _ => (o, d)

/-- The target `&o.SearchJobState` of `json.Unmarshal` in `SearchJob` and `SearchJobStatus`. -/
def storeSearchJobState (p : Option SearchJobState) (j : Json) (d : decodeState) :
    Option SearchJobState × decodeState :=
  storePointer "dohyo.SearchJobState" SearchJobState.zero SearchJobState.setField p j d

/-- The target `&o` of `json.Unmarshal` in `SearchJobMessages`, `o` being the receiver, a
pointer that is not nil: null sets the local variable `o` to nil and leaves the `SumoObject`
as it is; any other value is stored into the `SumoObject`. -/
def storeSumoObject (o : SumoObject) (j : Json) (d : decodeState) : SumoObject × decodeState :=
  let r := storePointer "dohyo.SumoObject" o SumoObject.setField (some o) j d
  (r.1.getD o, r.2)

/-- The call `json.Marshal(o.SearchJobQuery)`, as the JSON value of the text it returns: null
for the nil pointer. It returns no error for this type. -/
def Marshal (q : Option SearchJobQuery) : Json :=
  match q with
  | none => .null
  | some v => .object [("query", .string v.Query), ("from", .string v.From),
      ("to", .string v.To), ("timeZone", .string v.TimeZone)]

/-! ## sumo.go: requests -/

/-- The body of a response as a reader: the text it delivers and the error, if any, with which
the reading ends (`none` is a clean end of the stream). -/
structure Body where
  text : BodyText
  readErr : Option String

/-- The fields of `http.Response` that this package reads. -/
structure Response where
  Status : String
  StatusCode : Int
  Body : Body

/-- The world outside the program: `NewRequestErr method url` is the text of the error of
`http.NewRequest` when it rejects the URL, and `Do` is `http.Client.Do`, a response or the
text of a transport error. -/
structure Net where
  NewRequestErr : String → String → Option String
  Do : Request → Except String Response

/-- The outcome of a call: a run-time panic (a nil pointer is dereferenced), or a return. -/
inductive Exec (α : Type)
  | panic
  | ret (a : α)
  deriving DecidableEq

/-- The function `http.NewRequest`: a request with an empty header. -/
def NewRequest (net : Net) (method url : String) (body : Option Json) : Except String Request :=
  match net.NewRequestErr method url with
  | some err => .error err
  | none => .ok { Method := method, URL := url, Query := [], Header := [], Body := body }

/-- The function `ioutil.ReadAll`: the bytes read and the error of the reader. -/
def ReadAll (b : Body) : BodyText × Option String := (b.text, b.readErr)

/-- The function `runRequest`. -/
def runRequest (net : Net) (r : Request) : Except GoError Response :=
  match net.Do r with
  | .error err =>
    .error (.errorString ("unable to execute http " ++ r.Method ++ " request: " ++ err))
  | .ok resp => .ok resp

/-- The method `encodeQuery`: the entries of `query` (none for the nil map) are added to the
query of the URL. -/
def SumoObject.encodeQuery (_o : SumoObject) (r : Request) (query : Option StringMap) : Request :=
  { r with Query := r.Query ++ query.getD [] }

/-- The method `getRequestURL`. -/
def SumoObject.getRequestURL (o : SumoObject) : String := o.HostURL ++ o.QueryURL

/-- The method `get`. The call `o.Auth.BasicAuthHeader(req)` panics when `o.Auth` is nil. -/
def SumoObject.get (o : SumoObject) (net : Net) (url : String) (body : Option Json)
    (query : Option StringMap) : Exec (Except GoError Response) :=
  match NewRequest net "GET" url body with
  | .error err => .ret (.error (.errorString ("unable to create http GET request: " ++ err)))
  | .ok req =>
    let req1 := o.encodeQuery req query
    match o.Auth with
    | none => .panic
    | some a =>
      let req2 := a.BasicAuthHeader req1
      let req3 := { req2 with Header := req2.Header.Add "Content-Type" "application/json" }
      .ret (runRequest net req3)

/-- The method `post`. -/
def SumoObject.post (o : SumoObject) (net : Net) (url : String) (body : Option Json) :
    Exec (Except GoError Response) :=
  match NewRequest net "POST" url body with
  | .error err => .ret (.error (.errorString ("unable to create http POST request: " ++ err)))
  | .ok req =>
    match o.Auth with
    | none => .panic
    | some a =>
      let req1 := a.BasicAuthHeader req
      let req2 := { req1 with Header := req1.Header.Add "Content-Type" "application/json" }
      .ret (runRequest net req2)

/-- The method `delete`. -/
def SumoObject.delete (o : SumoObject) (net : Net) (url : String) (query : Option StringMap) :
    Exec (Except GoError Response) :=
  match NewRequest net "DELETE" url none with
  | .error err => .ret (.error (.errorString ("unable to create http DELETE request: " ++ err)))
  | .ok req =>
    match o.Auth with
    | none => .panic
    | some a =>
      let req1 := a.BasicAuthHeader req
      let req2 := o.encodeQuery req1 query
      .ret (runRequest net req2)

/-! ## sumo.go: the search job operations

Each operation returns its `error` and the `SumoObject` as the call leaves it. -/

/-- The method `SearchJob`. -/
def SumoObject.SearchJob (o : SumoObject) (net : Net) : Exec (Option GoError × SumoObject) :=
  let requestBody := Marshal o.SearchJobQuery
  match o.post net (o.HostURL ++ o.QueryURL) (some requestBody) with
  | .panic => .panic
  | .ret (.error err) => .ret (some err, o)
  | .ret (.ok response) =>
    if response.StatusCode = 202 then
      let bdy := (ReadAll response.Body).1
      let r := Unmarshal storeSearchJobState bdy o.SearchJobState
      let o1 := { o with SearchJobState := r.1 }
      match r.2 with
      | some err => .ret (some (.unmarshal err), o1)
      | none => .ret (none, o1)
    else
      .ret (some (.errorString response.Status), o)

/-- The method `SearchJobStatus`. The argument `o.SearchJobState.ID` panics when
`o.SearchJobState` is nil. -/
def SumoObject.SearchJobStatus (o : SumoObject) (net : Net) : Exec (Option GoError × SumoObject) :=
  match o.SearchJobState with
  | none => .panic
  | some st =>
    match o.get net (o.getRequestURL ++ pathSeparator ++ st.ID) none none with
    | .panic => .panic
    | .ret (.error err) => .ret (some err, o)
    | .ret (.ok response) =>
      match ReadAll response.Body with
      | (_, some err) => .ret (some (.errorString err), o)
      | (responseBody, none) =>
        let r := Unmarshal storeSearchJobState responseBody o.SearchJobState
        let o1 := { o with SearchJobState := r.1 }
        match r.2 with
        | some err => .ret (some (.unmarshal err), o1)
        | none => .ret (none, o1)

/-- The method `SearchJobMessages`. -/
def SumoObject.SearchJobMessages (o : SumoObject) (net : Net) (query : Option StringMap) :
    Exec (Option GoError × SumoObject) :=
  match o.SearchJobState with
  | none => .panic
  | some st =>
    match o.get net (o.getRequestURL ++ pathSeparator ++ st.ID ++ pathSeparator ++ "messages")
        none query with
    | .panic => .panic
    | .ret (.error err) => .ret (some err, o)
    | .ret (.ok response) =>
      match ReadAll response.Body with
      | (_, some err) => .ret (some (.errorString err), o)
      | (responseBody, none) =>
        let r := Unmarshal storeSumoObject responseBody o
        match r.2 with
        | some err => .ret (some (.unmarshal err), r.1)
        | none => .ret (none, r.1)

/-- The method `SearchJobRecords`: it returns a `map[string]interface{}` (`none` is the nil
map) and an error, and assigns nothing in the `SumoObject`. The error of `Decode` is dropped. -/
def SumoObject.SearchJobRecords (o : SumoObject) (sc : Strconv) (net : Net)
    (query : Option StringMap) : Exec (Option InterfaceMap × Option GoError) :=
  match o.SearchJobState with
  | none => .panic
  | some st =>
    match o.get net (o.getRequestURL ++ pathSeparator ++ st.ID ++ pathSeparator ++ "records")
        none query with
    | .panic => .panic
    | .ret (.error err) => .ret (none, some err)
    | .ret (.ok response) =>
      let responseBody := (DecodeInterfaceMap sc response.Body.text).1
      if response.StatusCode = 400 then
        .ret (none, some (.errorString (SprintfS sc (InterfaceMap.index responseBody "code"))))
      else
        .ret (responseBody, none)

/-- The method `DeleteSearchJob`. -/
def SumoObject.DeleteSearchJob (o : SumoObject) (net : Net) : Exec (Option GoError × SumoObject) :=
  match o.SearchJobState with
  | none => .panic
  | some st =>
    match o.delete net (o.getRequestURL ++ pathSeparator ++ st.ID) none with
    | .panic => .panic
    | .ret (.error err) => .ret (some err, o)
    | .ret (.ok response) =>
      if response.StatusCode ≠ 200 then
        .ret (some (.errorString ("could not delete search job: " ++ response.Status)), o)
      else
        .ret (none, o)

/-! ## What a failed `SearchJobStatus` leaves in the job state

These definitions follow the wording of the amended claim C4, not the code: they say, field by
field, which member of the body of a response decides the value of the field. -/

/-- The value of a string field after the members of a JSON object: the string of the last
member that selects the field number `idx` and holds a string, and `cur` when there is no such
member. -/
def lastStringMember (names : List String) (idx : Nat) : List (String × Json) → String → String
  | [], cur => cur
  | (key, j) :: members, cur =>
    if fieldIndex names key = some idx then
      match j with
      | .string s => lastStringMember names idx members s
      | _ => lastStringMember names idx members cur
    else lastStringMember names idx members cur

/-- The value of an `int` field after the members of a JSON object: the number of the last
member that selects the field number `idx` and holds a number literal without fraction and
exponent in the range of `int`, and `cur` when there is no such member. -/
def lastIntMember (names : List String) (idx : Nat) : List (String × Json) → Int → Int
  | [], cur => cur
  | (key, j) :: members, cur =>
    if fieldIndex names key = some idx then
      match j with
      | .number n =>
        match n.parseInt with
        | some i => lastIntMember names idx members i
        | none => lastIntMember names idx members cur
      | _ => lastIntMember names idx members cur
    else lastIntMember names idx members cur

/-- The job state `st` after the members of a JSON object, each field taken by itself. -/
def SearchJobState.afterMembers (st : SearchJobState) (members : List (String × Json)) :
    SearchJobState :=
  { ID := lastStringMember SearchJobState.fieldNames 0 members st.ID,
    State := lastStringMember SearchJobState.fieldNames 1 members st.State,
    MessageCount := lastIntMember SearchJobState.fieldNames 2 members st.MessageCount,
    RecordCount := lastIntMember SearchJobState.fieldNames 3 members st.RecordCount }

/-- The members of the body of the answer `r` to a GET, when there is an answer, its body was
read to the end without error and the body is one JSON object; no members otherwise (transport
failure, read failure, a body that is not one well-formed JSON value, a well-formed body that
is not an object). -/
def answerMembers : Except GoError Response → List (String × Json)
  | .error _ => []
  | .ok resp =>
    match resp.Body.readErr, resp.Body.text with
    | none, .document (.object members) => members
    | _, _ => []

/-! ## Sample data -/

/-- A network on which every URL is accepted and every request is answered by `resp`. -/
def Net.answering (resp : Response) : Net :=
  { NewRequestErr := fun _ _ => none, Do := fun _ => .ok resp }

/-- A network on which every URL is accepted and every request fails in the transport. -/
def Net.failing (err : String) : Net :=
  { NewRequestErr := fun _ _ => none, Do := fun _ => .error err }

/-- Credentials: the access id `id` and the access key `key`. -/
def sampleAuth : SumoLogicAuthModel := { AccessID := bytesOf "id", AccessKey := bytesOf "key" }

/-- The request `http.NewRequest("GET", "https://h/p", nil)` builds. -/
def sampleRequest : Request :=
  { Method := "GET", URL := "https://h/p", Query := [], Header := [], Body := none }

/-- The query of `sumo_test.go`. -/
def Job : SearchJobQuery :=
  { Query := "\"Query\" | count _sourceCategory", From := "2020-03-01T00:00:00",
    To := "2020-03-29T00:00:00", TimeZone := "GB" }

/-- The session of `sumo_test.go` before any call, with credentials filled in. -/
def sumoObj : SumoObject :=
  { Auth := some sampleAuth,
    HostURL := "https://api.us2.sumologic.com/api/v1", QueryURL := "/search/jobs",
    Headers := none, SearchJobQuery := some Job, SearchJobState := none,
    SearchJobMessage := none }

/-- A response `401 Unauthorized` with an empty body. -/
def unauthorized : Response :=
  { Status := "401 Unauthorized", StatusCode := 401, Body := { text := .invalid, readErr := none } }

/-- A response `200 OK` with an empty body. -/
def statusOK : Response :=
  { Status := "200 OK", StatusCode := 200, Body := { text := .invalid, readErr := none } }

/-- The state of a finished job that found nothing. -/
def doneState : SearchJobState :=
  { ID := "2B1E1A9A8C1A7F2E", State := "DONE GATHERING RESULTS", MessageCount := 0,
    RecordCount := 0 }

/-- The session of `sumo_test.go` with a finished job that found nothing. -/
def sumoObjDone : SumoObject := { sumoObj with SearchJobState := some doneState }

/-- A body that is read to its end without error. -/
def Body.ofJson (doc : Json) : Body := { text := .document doc, readErr := none }

/-- A response `202 Accepted` whose body is the empty JSON object. -/
def acceptedEmpty : Response :=
  { Status := "202 Accepted", StatusCode := 202, Body := Body.ofJson (.object []) }

/-- A response `202 Accepted` whose body is the JSON text `null`. -/
def acceptedNull : Response :=
  { Status := "202 Accepted", StatusCode := 202, Body := Body.ofJson .null }

/-- A response `202 Accepted` whose body is a job state with an id. -/
def acceptedJob : Response :=
  { Status := "202 Accepted", StatusCode := 202,
    Body := Body.ofJson (.object [("id", .string "2B1E1A9A8C1A7F2E"),
      ("state", .string "GATHERING RESULTS")]) }

/-- A response `200 OK` whose body is an object with the id `x` and the number 5 as state. -/
def statusMismatch : Response :=
  { Status := "200 OK", StatusCode := 200,
    Body := Body.ofJson (.object [("id", .string "x"),
      ("state", .number (.integer false 5))]) }

/-- A `strconv` for the samples: every literal is in the range of `float64` and is printed as
it is written, which is what Go does with the small whole numbers of the samples. -/
def sampleStrconv : Strconv := { ParseFloatOk := fun _ => true, FormatFloat := JNumber.text }

/-- A request for the first ten thousand entries. -/
def sampleQuery : Option StringMap := some [("limit", "10000"), ("offset", "0")]

/-- A response `400 Bad Request` of the API, with a string `code`. -/
def badRequest : Response :=
  { Status := "400 Bad Request", StatusCode := 400,
    Body := Body.ofJson (.object [("status", .number (.integer false 400)),
      ("code", .string "searchjob.offset.missing"),
      ("message", .string "Offset is missing.")]) }

/-- A response `400 Bad Request` whose `code` is the JSON value `true`. -/
def badRequestBool : Response :=
  { Status := "400 Bad Request", StatusCode := 400,
    Body := Body.ofJson (.object [("code", .bool true)]) }

/-- A response `400 Bad Request` whose body is not JSON (an HTML page of a proxy, say). -/
def badRequestPage : Response :=
  { Status := "400 Bad Request", StatusCode := 400,
    Body := { text := .invalid, readErr := none } }

/-- A response `404 Not Found` of the API, with a JSON body. -/
def notFound : Response :=
  { Status := "404 Not Found", StatusCode := 404,
    Body := Body.ofJson (.object [("status", .number (.integer false 404)),
      ("id", .string "X4SRS-U1A6Q-QH7F6"), ("code", .string "searchjob.jobid.invalid"),
      ("message", .string "Job ID is invalid.")]) }

/-- The first message of the first page. -/
def firstMessage : SearchJobMessages :=
  { Message :=
      { MessageTime := "1583020800000", Host := "web-1", Type_ := "/var/log/nginx/error.log",
        Log := "first error" } }

/-- The second message of the first page. -/
def secondMessage : SearchJobMessages :=
  { Message :=
      { MessageTime := "1583020801000", Host := "web-2", Type_ := "/var/log/nginx/error.log",
        Log := "second error" } }

/-- The first message of the first page with the raw line of the second response. -/
def mixedMessage : SearchJobMessages :=
  { Message :=
      { MessageTime := "1583020800000", Host := "web-1", Type_ := "/var/log/nginx/error.log",
        Log := "third error" } }

/-- The JSON text of a message. -/
def SearchJobMessages.toJson (m : SearchJobMessages) : Json :=
  .object [("map", .object [("_messagetime", .string m.Message.MessageTime),
    ("_sourcehost", .string m.Message.Host), ("_sourcename", .string m.Message.Type_),
    ("_raw", .string m.Message.Log)])]

/-- A response `200 OK` with a page of two messages. -/
def firstPage : Response :=
  { Status := "200 OK", StatusCode := 200,
    Body := Body.ofJson (.object [("messages",
      .array [firstMessage.toJson, secondMessage.toJson])]) }

/-- A response `200 OK` with a page of one message that has only the raw line. -/
def secondPage : Response :=
  { Status := "200 OK", StatusCode := 200,
    Body := Body.ofJson (.object [("messages",
      .array [.object [("map", .object [("_raw", .string "third error")])]])]) }

/-- A response `200 OK` whose body is an object without the member `messages`. -/
def pageWithoutMessages : Response :=
  { Status := "200 OK", StatusCode := 200, Body := Body.ofJson (.object []) }

/-- A response `200 OK` whose body names the fields of the session. -/
def hostilePage : Response :=
  { Status := "200 OK", StatusCode := 200,
    Body := Body.ofJson (.object [
      ("Auth", .object [("AccessID", .string "intruder"), ("AccessKey", .string "secret")]),
      ("HostURL", .string "https://evil.example"), ("QueryURL", .string "/collect"),
      ("messages", .array [])]) }

/-- The session with a finished job and an additional header. -/
def sumoObjWithHeader : SumoObject := { sumoObjDone with Headers := some [("X-Test", "1")] }

/-- A response `200 OK` whose body is an object with the number 5 as state and nothing else. -/
def statusStateOnly : Response :=
  { Status := "200 OK", StatusCode := 200,
    Body := Body.ofJson (.object [("state", .number (.integer false 5))]) }

/-- A response `200 OK` whose body is the JSON number 5. -/
def statusNumber : Response :=
  { Status := "200 OK", StatusCode := 200, Body := Body.ofJson (.number (.integer false 5)) }

/-- A response `200 OK` whose body is the empty JSON array. -/
def statusArray : Response :=
  { Status := "200 OK", StatusCode := 200, Body := Body.ofJson (.array []) }

/-- A response `200 OK` whose body is the JSON string `oops`. -/
def statusString : Response :=
  { Status := "200 OK", StatusCode := 200, Body := Body.ofJson (.string "oops") }

/-- A response `200 OK` whose body is cut short in the middle of the JSON text. -/
def statusTruncated : Response :=
  { Status := "200 OK", StatusCode := 200, Body := { text := .invalid, readErr := none } }

/-! ## base64: `Encode` computes the standard encoding -/

theorem val3 (a b c : Nat) (hb : b < 256) (hc : c < 256) :
    (a <<< 16) ||| (b <<< 8) ||| c = a * 65536 + b * 256 + c := by
  have h1 : (a <<< 16) ||| (b <<< 8) = 2 ^ 16 * a + b <<< 8 := by
    rw [Nat.shiftLeft_eq a, Nat.shiftLeft_eq b, Nat.mul_comm a, Nat.mul_add_lt_is_or]
    omega
  rw [h1]
  have h2 : 2 ^ 16 * a + b <<< 8 = 2 ^ 8 * (256 * a + b) := by
    rw [Nat.shiftLeft_eq]; omega
  rw [h2, ← Nat.mul_add_lt_is_or (by omega)]
  omega

theorem pick (v k : Nat) : (v >>> k) &&& 0x3F = v / 2 ^ k % 64 := by
  rw [Nat.shiftRight_eq_div_pow]
  exact Nat.and_pow_two_sub_one_eq_mod _ 6

theorem sextet_pad (n : Nat) : (4 - (n + 4) % 4) % 4 = (4 - n % 4) % 4 := by omega

theorem base64Chars_two (a b : UInt8) : base64Chars [a, b] =
    [encodeAt (sextetValue (bitAt a.toNat 7) (bitAt a.toNat 6) (bitAt a.toNat 5) (bitAt a.toNat 4)
        (bitAt a.toNat 3) (bitAt a.toNat 2)),
     encodeAt (sextetValue (bitAt a.toNat 1) (bitAt a.toNat 0) (bitAt b.toNat 7) (bitAt b.toNat 6)
        (bitAt b.toNat 5) (bitAt b.toNat 4)),
     encodeAt (sextetValue (bitAt b.toNat 3) (bitAt b.toNat 2) (bitAt b.toNat 1) (bitAt b.toNat 0)
        0 0), '='] := rfl

theorem base64Chars_one (a : UInt8) : base64Chars [a] =
    [encodeAt (sextetValue (bitAt a.toNat 7) (bitAt a.toNat 6) (bitAt a.toNat 5) (bitAt a.toNat 4)
        (bitAt a.toNat 3) (bitAt a.toNat 2)),
     encodeAt (sextetValue (bitAt a.toNat 1) (bitAt a.toNat 0) 0 0 0 0), '=', '='] := rfl

theorem base64Chars_three (a b c : UInt8) (rest : List UInt8) :
    base64Chars (a :: b :: c :: rest) =
    encodeAt (sextetValue (bitAt a.toNat 7) (bitAt a.toNat 6) (bitAt a.toNat 5) (bitAt a.toNat 4)
        (bitAt a.toNat 3) (bitAt a.toNat 2)) ::
     encodeAt (sextetValue (bitAt a.toNat 1) (bitAt a.toNat 0) (bitAt b.toNat 7) (bitAt b.toNat 6)
        (bitAt b.toNat 5) (bitAt b.toNat 4)) ::
     encodeAt (sextetValue (bitAt b.toNat 3) (bitAt b.toNat 2) (bitAt b.toNat 1) (bitAt b.toNat 0)
        (bitAt c.toNat 7) (bitAt c.toNat 6)) ::
     encodeAt (sextetValue (bitAt c.toNat 5) (bitAt c.toNat 4) (bitAt c.toNat 3) (bitAt c.toNat 2)
        (bitAt c.toNat 1) (bitAt c.toNat 0)) :: base64Chars rest := by
  have h : sextets (bitsOfBytes (a :: b :: c :: rest)) =
      sextetValue (bitAt a.toNat 7) (bitAt a.toNat 6) (bitAt a.toNat 5) (bitAt a.toNat 4)
        (bitAt a.toNat 3) (bitAt a.toNat 2) ::
      sextetValue (bitAt a.toNat 1) (bitAt a.toNat 0) (bitAt b.toNat 7) (bitAt b.toNat 6)
        (bitAt b.toNat 5) (bitAt b.toNat 4) ::
      sextetValue (bitAt b.toNat 3) (bitAt b.toNat 2) (bitAt b.toNat 1) (bitAt b.toNat 0)
        (bitAt c.toNat 7) (bitAt c.toNat 6) ::
      sextetValue (bitAt c.toNat 5) (bitAt c.toNat 4) (bitAt c.toNat 3) (bitAt c.toNat 2)
        (bitAt c.toNat 1) (bitAt c.toNat 0) :: sextets (bitsOfBytes rest) := rfl
  unfold base64Chars
  simp only [h, List.map_cons, List.length_cons, List.length_map, List.cons_append]
  rw [show (sextets (bitsOfBytes rest)).length + 1 + 1 + 1 + 1
        = (sextets (bitsOfBytes rest)).length + 4 from rfl, sextet_pad]

theorem sextet_hi (a b c : Nat) (hb : b < 256) (hc : c < 256) :
    ((a <<< 16 ||| b <<< 8 ||| c) >>> 18) &&& 0x3F
      = sextetValue (bitAt a 7) (bitAt a 6) (bitAt a 5) (bitAt a 4) (bitAt a 3) (bitAt a 2) := by
  rw [val3 a b c hb hc, pick]; simp only [sextetValue, bitAt]; norm_num; omega

theorem sextet_midhi (a b c : Nat) (hb : b < 256) (hc : c < 256) :
    ((a <<< 16 ||| b <<< 8 ||| c) >>> 12) &&& 0x3F
      = sextetValue (bitAt a 1) (bitAt a 0) (bitAt b 7) (bitAt b 6) (bitAt b 5) (bitAt b 4) := by
  rw [val3 a b c hb hc, pick]; simp only [sextetValue, bitAt]; norm_num; omega

theorem sextet_midlo (a b c : Nat) (hb : b < 256) (hc : c < 256) :
    ((a <<< 16 ||| b <<< 8 ||| c) >>> 6) &&& 0x3F
      = sextetValue (bitAt b 3) (bitAt b 2) (bitAt b 1) (bitAt b 0) (bitAt c 7) (bitAt c 6) := by
  rw [val3 a b c hb hc, pick]; simp only [sextetValue, bitAt]; norm_num; omega

theorem sextet_lo (a b c : Nat) (hb : b < 256) (hc : c < 256) :
    (a <<< 16 ||| b <<< 8 ||| c) &&& 0x3F
      = sextetValue (bitAt c 5) (bitAt c 4) (bitAt c 3) (bitAt c 2) (bitAt c 1) (bitAt c 0) := by
  rw [val3 a b c hb hc, show (0x3F : Nat) = 2 ^ 6 - 1 from rfl, Nat.and_pow_two_sub_one_eq_mod]
  simp only [sextetValue, bitAt]; norm_num; omega

theorem Encode_eq_base64Chars (bs : List UInt8) : Encode bs = base64Chars bs := by
  induction bs using Encode.induct with
  | case1 a b c rest ih =>
    rw [base64Chars_three, ← ih]
    simp only [Encode]
    rw [sextet_hi _ _ _ b.toNat_lt c.toNat_lt,
      sextet_midhi _ _ _ b.toNat_lt c.toNat_lt,
      sextet_midlo _ _ _ b.toNat_lt c.toNat_lt,
      sextet_lo _ _ _ b.toNat_lt c.toNat_lt]
  | case2 a b =>
    have h0 := sextet_hi a.toNat _ 0 b.toNat_lt (by omega)
    have h1 := sextet_midhi a.toNat _ 0 b.toNat_lt (by omega)
    have h2 := sextet_midlo a.toNat _ 0 b.toNat_lt (by omega)
    simp only [Nat.or_zero] at h0 h1 h2
    rw [base64Chars_two]
    simp only [Encode]
    rw [h0, h1, h2]
    rfl
  | case3 a =>
    have h0 := sextet_hi a.toNat 0 0 (by omega) (by omega)
    have h1 := sextet_midhi a.toNat 0 0 (by omega) (by omega)
    simp only [Nat.or_zero, Nat.zero_shiftLeft] at h0 h1
    rw [base64Chars_one]
    simp only [Encode]
    rw [h0, h1]
    rfl
  | case4 => rfl

/-- The test vectors of RFC 4648, section 10, for the definition of the encoding. -/
theorem base64Chars_rfc4648_vectors :
    String.mk (base64Chars (bytesOf "")) = ""
      ∧ String.mk (base64Chars (bytesOf "f")) = "Zg=="
      ∧ String.mk (base64Chars (bytesOf "fo")) = "Zm8="
      ∧ String.mk (base64Chars (bytesOf "foo")) = "Zm9v"
      ∧ String.mk (base64Chars (bytesOf "foob")) = "Zm9vYg=="
      ∧ String.mk (base64Chars (bytesOf "fooba")) = "Zm9vYmE="
      ∧ String.mk (base64Chars (bytesOf "foobar")) = "Zm9vYmFy" := by
  decide

/-! ## C1: the Authorization header -/

theorem canonical_Authorization : CanonicalMIMEHeaderKey "Authorization" = "Authorization" := by
  decide

theorem NewRequest_Header (net : Net) (method url : String) (body : Option Json) (r : Request)
    (h : NewRequest net method url body = .ok r) : r.Header = [] := by
  unfold NewRequest at h
  split at h
  · cases h
  · cases h; rfl

/-- C1. On a request that `http.NewRequest` has just built, `BasicAuthHeader` leaves exactly one
header, `Authorization`, with exactly one value: `Basic ` followed by the standard padded base64
encoding of the bytes of the access id, a colon and the access key. On a second such request it
leaves the same value. -/
theorem BasicAuthHeader_fresh (a : SumoLogicAuthModel) (net net2 : Net)
    (method url method2 url2 : String) (body body2 : Option Json) (r r2 : Request)
    (h : NewRequest net method url body = .ok r)
    (h2 : NewRequest net2 method2 url2 body2 = .ok r2) :
    (a.BasicAuthHeader r).Header.Values "Authorization"
        = ["Basic " ++ String.mk (base64Chars (a.AccessID ++ bytesOf ":" ++ a.AccessKey))]
      ∧ (a.BasicAuthHeader r).Header
        = [("Authorization",
            ["Basic " ++ String.mk (base64Chars (a.AccessID ++ bytesOf ":" ++ a.AccessKey))])]
      ∧ (a.BasicAuthHeader r2).Header.Values "Authorization"
        = (a.BasicAuthHeader r).Header.Values "Authorization" := by
  have e := NewRequest_Header net method url body r h
  have e2 := NewRequest_Header net2 method2 url2 body2 r2 h2
  simp only [SumoLogicAuthModel.BasicAuthHeader, Header.Add, Header.Values, e, e2,
    canonical_Authorization, Header.index, Header.assign, EncodeToString,
    Encode_eq_base64Chars, List.lookup, List.nil_append, beq_self_eq_true, Option.getD_some,
    Option.getD_none, and_self]

theorem BasicAuthHeader_fresh_witness :
    NewRequest (Net.failing "down") "GET" "https://h/p" none = .ok sampleRequest
      ∧ (sampleAuth.BasicAuthHeader sampleRequest).Header.Values "Authorization"
          = ["Basic aWQ6a2V5"]
      ∧ (SumoLogicAuthModel.BasicAuthHeader { AccessID := [], AccessKey := [] }
            sampleRequest).Header.Values "Authorization"
          = ["Basic Og=="] := by
  refine ⟨rfl, ?_, ?_⟩
  · rw [(BasicAuthHeader_fresh sampleAuth (Net.failing "down") (Net.failing "down") "GET"
      "https://h/p" "GET" "https://h/p" none none sampleRequest sampleRequest rfl rfl).1]
    decide
  · rw [(BasicAuthHeader_fresh { AccessID := [], AccessKey := [] } (Net.failing "down")
      (Net.failing "down") "GET" "https://h/p" "GET" "https://h/p" none none sampleRequest
      sampleRequest rfl rfl).1]
    decide

/-! ## C2: `SearchJob` on a status other than 202 -/

/-- C2. When the POST of `SearchJob` is answered with a status code other than 202, `SearchJob`
returns an error whose text is the status text of the response, and the session, its
`SearchJobState` included, is as it was before the call. -/
theorem SearchJob_status_not_202 (o : SumoObject) (net : Net) (resp : Response)
    (h : o.post net (o.HostURL ++ o.QueryURL) (some (Marshal o.SearchJobQuery)) = .ret (.ok resp))
    (hs : resp.StatusCode ≠ 202) :
    o.SearchJob net = .ret (some (.errorString resp.Status), o) := by
  simp [SumoObject.SearchJob, h, hs]

theorem SearchJob_status_not_202_witness :
    sumoObj.post (Net.answering unauthorized) (sumoObj.HostURL ++ sumoObj.QueryURL)
        (some (Marshal sumoObj.SearchJobQuery)) = .ret (.ok unauthorized)
      ∧ unauthorized.StatusCode ≠ 202
      ∧ sumoObj.SearchJob (Net.answering unauthorized)
        = .ret (some (.errorString "401 Unauthorized"), sumoObj) :=
  ⟨rfl, by decide,
    SearchJob_status_not_202 sumoObj (Net.answering unauthorized) unauthorized rfl (by decide)⟩

/-! ## C5: `DeleteSearchJob` -/

/-- C5. When the DELETE of `DeleteSearchJob` is answered, the call returns no error if and only
if the status code is 200; for any other status code it returns the error whose text is
`could not delete search job: ` followed by the status text of the response. The session is
left as it was, and with any other message count and record count in the job state the call
returns the same error. -/
theorem DeleteSearchJob_status (o : SumoObject) (net : Net) (st : SearchJobState)
    (resp : Response) (hst : o.SearchJobState = some st)
    (h : o.delete net (o.getRequestURL ++ pathSeparator ++ st.ID) none = .ret (.ok resp)) :
    ∃ err, o.DeleteSearchJob net = .ret (err, o)
      ∧ (err = none ↔ resp.StatusCode = 200)
      ∧ (resp.StatusCode ≠ 200 →
          err = some (.errorString ("could not delete search job: " ++ resp.Status)))
      ∧ ∀ mc rc : Int,
          SumoObject.DeleteSearchJob
              { o with SearchJobState := some { st with MessageCount := mc, RecordCount := rc } }
              net
            = .ret (err,
              { o with SearchJobState := some { st with MessageCount := mc, RecordCount := rc } })
      := by
  have h2 : ∀ mc rc : Int, SumoObject.delete
      { o with SearchJobState := some { st with MessageCount := mc, RecordCount := rc } } net
      (o.getRequestURL ++ pathSeparator ++ st.ID) none = .ret (.ok resp) := by
    intro mc rc
    rw [← h]
    rfl
  by_cases hs : resp.StatusCode = 200
  · refine ⟨none, ?_, ?_, ?_, ?_⟩
    · simp [SumoObject.DeleteSearchJob, hst, h, hs]
    · simp [hs]
    · intro hne; exact absurd hs hne
    · intro mc rc
      have e := h2 mc rc
      simp only [SumoObject.getRequestURL] at e
      simp [SumoObject.DeleteSearchJob, SumoObject.getRequestURL, e, hs]
  · refine ⟨some (.errorString ("could not delete search job: " ++ resp.Status)), ?_, ?_, ?_, ?_⟩
    · simp [SumoObject.DeleteSearchJob, hst, h, hs]
    · simp [hs]
    · intro _; rfl
    · intro mc rc
      have e := h2 mc rc
      simp only [SumoObject.getRequestURL] at e
      simp [SumoObject.DeleteSearchJob, SumoObject.getRequestURL, e, hs]

theorem DeleteSearchJob_status_witness :
    sumoObjDone.SearchJobState = some doneState
      ∧ sumoObjDone.delete (Net.answering statusOK)
          (sumoObjDone.getRequestURL ++ pathSeparator ++ doneState.ID) none
        = .ret (.ok statusOK)
      ∧ doneState.MessageCount = 0
      ∧ sumoObjDone.DeleteSearchJob (Net.answering statusOK) = .ret (none, sumoObjDone) := by
  refine ⟨rfl, rfl, rfl, ?_⟩
  obtain ⟨err, h1, h2, _⟩ := DeleteSearchJob_status sumoObjDone (Net.answering statusOK)
    doneState statusOK rfl rfl
  rw [h1, h2.mpr rfl]

/-! ## C3: `SearchJob` on a 202 -/

/-- C3, counterexample. The session of `sumo_test.go` has no job state. On a 202 whose body is
the empty object, `SearchJob` returns no error and leaves a job state whose ID is the empty
string; on a 202 whose body is `null` it returns no error and leaves no job state, and a call of
`SearchJobStatus` then panics. -/
theorem SearchJob_accepted_without_id :
    sumoObj.post (Net.answering acceptedEmpty) (sumoObj.HostURL ++ sumoObj.QueryURL)
        (some (Marshal sumoObj.SearchJobQuery)) = .ret (.ok acceptedEmpty)
      ∧ acceptedEmpty.StatusCode = 202
      ∧ sumoObj.SearchJob (Net.answering acceptedEmpty)
        = .ret (none, { sumoObj with SearchJobState := some SearchJobState.zero })
      ∧ SearchJobState.zero.ID = ""
      ∧ acceptedNull.StatusCode = 202
      ∧ sumoObj.SearchJob (Net.answering acceptedNull)
        = .ret (none, { sumoObj with SearchJobState := none })
      ∧ SumoObject.SearchJobStatus { sumoObj with SearchJobState := none }
          (Net.answering statusOK) = .panic := by
  refine ⟨rfl, rfl, ?_, rfl, rfl, ?_, ?_⟩ <;> decide

theorem objectInto_append {σ : Type}
    (f : σ → String → Json → decodeState → σ × decodeState)
    (ms1 ms2 : List (String × Json)) (v : σ) (d : decodeState) :
    objectInto f (ms1 ++ ms2) v d
      = objectInto f ms2 (objectInto f ms1 v d).1 (objectInto f ms1 v d).2 := by
  induction ms1 generalizing v d with
  | nil => rfl
  | cons m ms ih =>
    obtain ⟨k, j⟩ := m
    simp only [List.cons_append, objectInto, List.append_eq, ih]

theorem SearchJobState.setField_ID (v : SearchJobState) (key : String) (j : Json)
    (d : decodeState) (h : fieldIndex SearchJobState.fieldNames key ≠ some 0) :
    (SearchJobState.setField v key j d).1.ID = v.ID := by
  unfold SearchJobState.setField
  split
  · rename_i e; exact absurd e h
  all_goals rfl

theorem SearchJobState.objectInto_ID (ms : List (String × Json)) (v : SearchJobState)
    (d : decodeState) (h : ∀ m ∈ ms, fieldIndex SearchJobState.fieldNames m.1 ≠ some 0) :
    (objectInto SearchJobState.setField ms v d).1.ID = v.ID := by
  induction ms generalizing v d with
  | nil => rfl
  | cons m ms ih =>
    obtain ⟨k, j⟩ := m
    simp only [objectInto]
    rw [ih _ _ (fun m hm => h m (List.mem_cons_of_mem _ hm))]
    exact SearchJobState.setField_ID v k j d (h (k, j) (List.mem_cons_self _ _))

/-- C3, amended. When the POST of `SearchJob` is answered with a 202 whose body is a JSON
object, and the last member of the object that selects the field `id` is a string that is not
empty, then after the call the `SearchJobState` of the session is present and its ID is that
string (whether or not another member makes `SearchJob` return an error). -/
theorem SearchJob_accepted_with_id (o : SumoObject) (net : Net) (resp : Response)
    (before after : List (String × Json)) (key id : String)
    (h : o.post net (o.HostURL ++ o.QueryURL) (some (Marshal o.SearchJobQuery)) = .ret (.ok resp))
    (hs : resp.StatusCode = 202)
    (hb : resp.Body.text = .document (.object (before ++ (key, .string id) :: after)))
    (hkey : fieldIndex SearchJobState.fieldNames key = some 0)
    (hlast : ∀ m ∈ after, fieldIndex SearchJobState.fieldNames m.1 ≠ some 0)
    (hid : id ≠ "") :
    ∃ err o1 st, o.SearchJob net = .ret (err, o1) ∧ o1.SearchJobState = some st
      ∧ st.ID = id ∧ st.ID ≠ "" := by
  have key1 : ∀ (v : SearchJobState) (d : decodeState),
      (objectInto SearchJobState.setField (before ++ (key, .string id) :: after) v d).1.ID
        = id := by
    intro v d
    rw [objectInto_append]
    simp only [objectInto]
    rw [SearchJobState.objectInto_ID _ _ _ hlast]
    simp only [SearchJobState.setField, hkey, storeString]
  simp only [SumoObject.SearchJob, h, hs, if_true, ReadAll, hb, Unmarshal, storeSearchJobState,
    storePointer, storeStruct]
  split
  · exact ⟨_, _, _, rfl, rfl, key1 _ _, by rw [key1]; exact hid⟩
  · exact ⟨_, _, _, rfl, rfl, key1 _ _, by rw [key1]; exact hid⟩

theorem SearchJob_accepted_with_id_witness :
    sumoObj.post (Net.answering acceptedJob) (sumoObj.HostURL ++ sumoObj.QueryURL)
        (some (Marshal sumoObj.SearchJobQuery)) = .ret (.ok acceptedJob)
      ∧ acceptedJob.StatusCode = 202
      ∧ ∃ err o1 st, sumoObj.SearchJob (Net.answering acceptedJob) = .ret (err, o1)
          ∧ o1.SearchJobState = some st ∧ st.ID = "2B1E1A9A8C1A7F2E" ∧ st.ID ≠ "" :=
  ⟨rfl, rfl, SearchJob_accepted_with_id sumoObj (Net.answering acceptedJob) acceptedJob
    [] [("state", .string "GATHERING RESULTS")] "id" "2B1E1A9A8C1A7F2E" rfl rfl rfl
    (by decide) (by decide) (by decide)⟩

/-! ## C4: `SearchJobStatus` and a failed call -/

/-- C4, counterexample. The job state has the ID `2B1E1A9A8C1A7F2E`. The body of the response
is an object whose `id` is the string `x` and whose `state` is the number 5. `SearchJobStatus`
returns an error, since a number does not decode into the string field `State`, and the ID of
the job state is now `x`. -/
theorem SearchJobStatus_error_changes_state :
    sumoObjDone.SearchJobState = some doneState
      ∧ sumoObjDone.get (Net.answering statusMismatch)
          (sumoObjDone.getRequestURL ++ pathSeparator ++ doneState.ID) none none
        = .ret (.ok statusMismatch)
      ∧ sumoObjDone.SearchJobStatus (Net.answering statusMismatch)
        = .ret (some (.unmarshal (.unmarshalType "number" "string")),
            { sumoObjDone with SearchJobState := some { doneState with ID := "x" } })
      ∧ doneState.ID ≠ "x" := by
  refine ⟨rfl, rfl, ?_, ?_⟩ <;> decide

theorem SearchJobState.setField_fields (v : SearchJobState) (key : String) (j : Json)
    (d : decodeState) :
    (SearchJobState.setField v key j d).1 = v.afterMembers [(key, j)] := by
  unfold SearchJobState.setField
  split
  · rename_i e
    cases j <;> simp [SearchJobState.afterMembers, lastStringMember, lastIntMember, e, storeString]
  · rename_i e
    cases j <;> simp [SearchJobState.afterMembers, lastStringMember, lastIntMember, e, storeString]
  · rename_i e
    cases j with
    | number n =>
      cases hn : n.parseInt <;>
        simp [SearchJobState.afterMembers, lastStringMember, lastIntMember, e, storeInt, hn]
    | _ => simp [SearchJobState.afterMembers, lastStringMember, lastIntMember, e, storeInt]
  · rename_i e
    cases j with
    | number n =>
      cases hn : n.parseInt <;>
        simp [SearchJobState.afterMembers, lastStringMember, lastIntMember, e, storeInt, hn]
    | _ => simp [SearchJobState.afterMembers, lastStringMember, lastIntMember, e, storeInt]
  · rename_i e0 e1 e2 e3
    simp only [SearchJobState.afterMembers, lastStringMember, lastIntMember]
    rw [if_neg e0, if_neg e1, if_neg e2, if_neg e3]

theorem SearchJobState.afterMembers_cons (v : SearchJobState) (key : String) (j : Json)
    (members : List (String × Json)) :
    v.afterMembers ((key, j) :: members) = (v.afterMembers [(key, j)]).afterMembers members := by
  simp only [SearchJobState.afterMembers, lastStringMember, lastIntMember]
  congr 1
  · split
    · cases j <;> rfl
    · rfl
  · split
    · cases j <;> rfl
    · rfl
  · split
    · cases j with
      | number n => cases hn : n.parseInt <;> simp [hn]
      | _ => rfl
    · rfl
  · split
    · cases j with
      | number n => cases hn : n.parseInt <;> simp [hn]
      | _ => rfl
    · rfl

theorem SearchJobState.objectInto_afterMembers (members : List (String × Json))
    (v : SearchJobState) (d : decodeState) :
    (objectInto SearchJobState.setField members v d).1 = v.afterMembers members := by
  induction members generalizing v d with
  | nil => rfl
  | cons m ms ih =>
    obtain ⟨key, j⟩ := m
    simp only [objectInto]
    rw [ih, SearchJobState.setField_fields, ← SearchJobState.afterMembers_cons]


theorem same_state_update (o : SumoObject) (st : SearchJobState)
    (hst : o.SearchJobState = some st) : { o with SearchJobState := some st } = o := by
  cases o; cases hst; rfl

/-- C4, amended. When `SearchJobStatus` returns an error, nothing in the session but the
`SearchJobState` can differ from before the call, the `SearchJobState` is still present, and each
of its fields has its value of before the call unless the response was received, its body was
read to the end and is one JSON object, and a member of that object decodes into the field (a
string for `id` and `state`, a whole number in the range of `int` for `messageCount` and
`recordCount`): the field then has the value of the last such member. So the session is as
before the call exactly when no field gets another value in this way, and in particular after a
transport failure, a read failure, a body that is not one well-formed JSON value and a
well-formed body that is not an object. -/
theorem SearchJobStatus_error_state (o : SumoObject) (net : Net) (st : SearchJobState)
    (r : Except GoError Response) (err : GoError) (o1 : SumoObject)
    (hst : o.SearchJobState = some st)
    (h : o.get net (o.getRequestURL ++ pathSeparator ++ st.ID) none none = .ret r)
    (hret : o.SearchJobStatus net = .ret (some err, o1)) :
    o1 = { o with SearchJobState := some (st.afterMembers (answerMembers r)) }
      ∧ (o1 = o ↔ st.afterMembers (answerMembers r) = st)
      ∧ (answerMembers r = [] → o1 = o) := by
  have same : { o with SearchJobState := some st } = o := same_state_update o st hst
  have key : o1 = { o with SearchJobState := some (st.afterMembers (answerMembers r)) } := by
    cases r with
    | error e =>
      simp only [SumoObject.SearchJobStatus, hst, h] at hret
      cases hret
      exact same.symm
    | ok resp =>
      cases hre : resp.Body.readErr with
      | some e =>
        simp only [SumoObject.SearchJobStatus, hst, h, ReadAll, hre] at hret
        cases hret
        simp only [answerMembers, hre]
        exact same.symm
      | none =>
        cases htx : resp.Body.text with
        | invalid =>
          simp only [SumoObject.SearchJobStatus, hst, h, ReadAll, hre, htx, Unmarshal] at hret
          cases hret
          simp only [answerMembers, hre, htx]
          rfl
        | trailing j =>
          simp only [SumoObject.SearchJobStatus, hst, h, ReadAll, hre, htx, Unmarshal] at hret
          cases hret
          simp only [answerMembers, hre, htx]
          rfl
        | document doc =>
          cases doc with
          | null =>
            simp [SumoObject.SearchJobStatus, hst, h, ReadAll, hre, htx, Unmarshal,
              storeSearchJobState, storePointer] at hret
          | object members =>
            simp only [SumoObject.SearchJobStatus, hst, h, ReadAll, hre, htx, Unmarshal,
              storeSearchJobState, storePointer, storeStruct, Option.getD_some] at hret
            simp only [answerMembers, hre, htx]
            rw [← SearchJobState.objectInto_afterMembers members st { savedError := none }]
            split at hret
            · cases hret; rfl
            · cases hret
          | bool b =>
            simp only [SumoObject.SearchJobStatus, hst, h, ReadAll, hre, htx, Unmarshal,
              storeSearchJobState, storePointer, storeStruct, Option.getD_some,
              decodeState.saveError] at hret
            cases hret
            simp only [answerMembers, hre, htx]
            rfl
          | number n =>
            simp only [SumoObject.SearchJobStatus, hst, h, ReadAll, hre, htx, Unmarshal,
              storeSearchJobState, storePointer, storeStruct, Option.getD_some,
              decodeState.saveError] at hret
            cases hret
            simp only [answerMembers, hre, htx]
            rfl
          | string s =>
            simp only [SumoObject.SearchJobStatus, hst, h, ReadAll, hre, htx, Unmarshal,
              storeSearchJobState, storePointer, storeStruct, Option.getD_some,
              decodeState.saveError] at hret
            cases hret
            simp only [answerMembers, hre, htx]
            rfl
          | array elems =>
            simp only [SumoObject.SearchJobStatus, hst, h, ReadAll, hre, htx, Unmarshal,
              storeSearchJobState, storePointer, storeStruct, Option.getD_some,
              decodeState.saveError] at hret
            cases hret
            simp only [answerMembers, hre, htx]
            rfl
  refine ⟨key, ?_, ?_⟩
  · constructor
    · intro e
      have e2 := congrArg SumoObject.SearchJobState (key.symm.trans e)
      rw [hst] at e2
      exact Option.some.inj e2
    · intro e
      rw [key, e]
      exact same
  · intro e
    rw [key, e]
    exact same

theorem SearchJobStatus_error_state_witness :
    sumoObjDone.SearchJobState = some doneState
      ∧ sumoObjDone.get (Net.answering statusStateOnly)
          (sumoObjDone.getRequestURL ++ pathSeparator ++ doneState.ID) none none
        = .ret (.ok statusStateOnly)
      ∧ sumoObjDone.SearchJobStatus (Net.answering statusStateOnly)
        = .ret (some (.unmarshal (.unmarshalType "number" "string")), sumoObjDone)
      ∧ doneState.afterMembers (answerMembers (.ok statusStateOnly)) = doneState
      ∧ sumoObjDone.SearchJobStatus (Net.answering statusNumber)
        = .ret (some (.unmarshal (.unmarshalType "number" "dohyo.SearchJobState")), sumoObjDone)
      ∧ sumoObjDone.SearchJobStatus (Net.answering statusArray)
        = .ret (some (.unmarshal (.unmarshalType "array" "dohyo.SearchJobState")), sumoObjDone)
      ∧ sumoObjDone.SearchJobStatus (Net.answering statusString)
        = .ret (some (.unmarshal (.unmarshalType "string" "dohyo.SearchJobState")), sumoObjDone)
      ∧ sumoObjDone.SearchJobStatus (Net.answering statusTruncated)
        = .ret (some (.unmarshal .invalidText), sumoObjDone)
      ∧ sumoObjDone.SearchJobStatus (Net.failing "connection refused")
        = .ret (some (.errorString
            "unable to execute http GET request: connection refused"), sumoObjDone) := by
  have h1 : sumoObjDone.SearchJobStatus (Net.answering statusStateOnly)
      = .ret (some (.unmarshal (.unmarshalType "number" "string")), sumoObjDone) := by decide
  refine ⟨rfl, rfl, h1, ?_, by decide, by decide, by decide, by decide, by decide⟩
  exact ((SearchJobStatus_error_state sumoObjDone (Net.answering statusStateOnly) doneState
    (.ok statusStateOnly) _ sumoObjDone rfl rfl h1).2.1).mp rfl

/-! ## C7: `SearchJobRecords` -/

/-- C7, counterexample. On a 400 whose body is an object with the member `code` set to `true`,
the text of the error of `SearchJobRecords` is not the value `true` but `%!s(bool=true)`; on a
400 whose body is not JSON there is no decoded body and the text is `%!s(<nil>)`. -/
theorem SearchJobRecords_400_code_not_string :
    sumoObjDone.SearchJobState = some doneState
      ∧ sumoObjDone.get (Net.answering badRequestBool)
          (sumoObjDone.getRequestURL ++ pathSeparator ++ doneState.ID ++ pathSeparator ++ "records")
          none sampleQuery = .ret (.ok badRequestBool)
      ∧ badRequestBool.StatusCode = 400
      ∧ (DecodeInterfaceMap sampleStrconv badRequestBool.Body.text).1
        = some [("code", .bool true)]
      ∧ sumoObjDone.SearchJobRecords sampleStrconv (Net.answering badRequestBool) sampleQuery
        = .ret (none, some (.errorString "%!s(bool=true)"))
      ∧ badRequestPage.StatusCode = 400
      ∧ (DecodeInterfaceMap sampleStrconv badRequestPage.Body.text).1 = none
      ∧ sumoObjDone.SearchJobRecords sampleStrconv (Net.answering badRequestPage) sampleQuery
        = .ret (none, some (.errorString "%!s(<nil>)")) :=
  ⟨rfl, rfl, rfl, rfl, rfl, rfl, rfl, rfl⟩

/-- C7, amended. When the GET of `SearchJobRecords` is answered: with the status code 400 the call
returns a nil result and an error, and the text of the error is the value of the member `code`
of the decoded body when that value is a string; with any other status code the call returns
no error and the decoded body, which is the map of the members when the body starts with a
JSON object and the nil map otherwise. -/
theorem SearchJobRecords_status (o : SumoObject) (sc : Strconv) (net : Net)
    (st : SearchJobState) (query : Option StringMap) (resp : Response)
    (hst : o.SearchJobState = some st)
    (h : o.get net (o.getRequestURL ++ pathSeparator ++ st.ID ++ pathSeparator ++ "records")
      none query = .ret (.ok resp)) :
    (resp.StatusCode = 400 →
        ∃ text, o.SearchJobRecords sc net query = .ret (none, some (.errorString text))
          ∧ ∀ s, InterfaceMap.index (DecodeInterfaceMap sc resp.Body.text).1 "code" = .string s →
              text = s)
      ∧ (resp.StatusCode ≠ 400 →
          o.SearchJobRecords sc net query = .ret ((DecodeInterfaceMap sc resp.Body.text).1, none))
      ∧ (∀ members, resp.Body.text.first = some (.object members) →
          (DecodeInterfaceMap sc resp.Body.text).1
            = some (objectInterface sc members [] { savedError := none }).1)
      ∧ ((∀ members, resp.Body.text.first ≠ some (.object members)) →
          (DecodeInterfaceMap sc resp.Body.text).1 = none) := by
  refine ⟨?_, ?_, ?_, ?_⟩
  · intro hs
    refine ⟨SprintfS sc (InterfaceMap.index (DecodeInterfaceMap sc resp.Body.text).1 "code"),
      by simp only [SumoObject.SearchJobRecords, hst, h, hs, if_true], ?_⟩
    intro s hcode
    rw [hcode]
    rfl
  · intro hs
    simp only [SumoObject.SearchJobRecords, hst, h, hs, if_false]
  · intro members hm
    simp only [DecodeInterfaceMap, hm]
  · intro hno
    unfold DecodeInterfaceMap
    split
    · rfl
    · rfl
    · rename_i members hm
      exact absurd hm (hno members)
    · rfl

theorem SearchJobRecords_status_witness :
    sumoObjDone.SearchJobState = some doneState
      ∧ sumoObjDone.get (Net.answering badRequest)
          (sumoObjDone.getRequestURL ++ pathSeparator ++ doneState.ID ++ pathSeparator ++ "records")
          none sampleQuery = .ret (.ok badRequest)
      ∧ badRequest.StatusCode = 400
      ∧ InterfaceMap.index (DecodeInterfaceMap sampleStrconv badRequest.Body.text).1 "code"
        = .string "searchjob.offset.missing"
      ∧ sumoObjDone.SearchJobRecords sampleStrconv (Net.answering badRequest) sampleQuery
        = .ret (none, some (.errorString "searchjob.offset.missing")) := by
  refine ⟨rfl, rfl, rfl, rfl, ?_⟩
  obtain ⟨text, h1, h2⟩ := (SearchJobRecords_status sumoObjDone sampleStrconv
    (Net.answering badRequest) doneState sampleQuery badRequest rfl rfl).1 rfl
  rw [h1, h2 "searchjob.offset.missing" rfl]

/-! ## C9: status codes outside 200..299 -/

/-- C9, counterexample. On a `404 Not Found` with a JSON body, `SearchJobRecords` returns the
decoded body and no error, and `SearchJobStatus` returns no error and stores the `id` of the
body in the job state. -/
theorem no_error_on_404 :
    sumoObjDone.SearchJobState = some doneState
      ∧ (notFound.StatusCode < 200 ∨ 299 < notFound.StatusCode)
      ∧ sumoObjDone.get (Net.answering notFound)
          (sumoObjDone.getRequestURL ++ pathSeparator ++ doneState.ID ++ pathSeparator ++ "records")
          none sampleQuery = .ret (.ok notFound)
      ∧ sumoObjDone.SearchJobRecords sampleStrconv (Net.answering notFound) sampleQuery
        = .ret (some [("code", .string "searchjob.jobid.invalid"),
              ("id", .string "X4SRS-U1A6Q-QH7F6"), ("message", .string "Job ID is invalid."),
              ("status", .float64 (.integer false 404))], none)
      ∧ sumoObjDone.get (Net.answering notFound)
          (sumoObjDone.getRequestURL ++ pathSeparator ++ doneState.ID) none none
        = .ret (.ok notFound)
      ∧ sumoObjDone.SearchJobStatus (Net.answering notFound)
        = .ret (none, { sumoObjDone with
            SearchJobState := some { doneState with ID := "X4SRS-U1A6Q-QH7F6" } }) := by
  refine ⟨rfl, Or.inr (by decide), rfl, ?_, rfl, ?_⟩
  · rfl
  · decide

/-- C9, amended. When the response has a status code outside 200..299, `SearchJob` returns the
error whose text is the status text and `DeleteSearchJob` the error whose text is
`could not delete search job: ` followed by the status text; `SearchJobRecords` returns an error
when the status code is 400. -/
theorem error_on_status_outside_2xx (o : SumoObject) (net : Net) (resp : Response)
    (hout : resp.StatusCode < 200 ∨ 299 < resp.StatusCode) :
    (o.post net (o.HostURL ++ o.QueryURL) (some (Marshal o.SearchJobQuery)) = .ret (.ok resp) →
        o.SearchJob net = .ret (some (.errorString resp.Status), o))
      ∧ (∀ st, o.SearchJobState = some st →
          o.delete net (o.getRequestURL ++ pathSeparator ++ st.ID) none = .ret (.ok resp) →
          o.DeleteSearchJob net
            = .ret (some (.errorString ("could not delete search job: " ++ resp.Status)), o))
      ∧ (∀ sc st query, o.SearchJobState = some st →
          o.get net (o.getRequestURL ++ pathSeparator ++ st.ID ++ pathSeparator ++ "records")
            none query = .ret (.ok resp) →
          resp.StatusCode = 400 →
          ∃ text, o.SearchJobRecords sc net query = .ret (none, some (.errorString text))) := by
  have h202 : resp.StatusCode ≠ 202 := by omega
  have h200 : resp.StatusCode ≠ 200 := by omega
  refine ⟨?_, ?_, ?_⟩
  · intro h
    simp [SumoObject.SearchJob, h, h202]
  · intro st hst h
    simp [SumoObject.DeleteSearchJob, hst, h, h200]
  · intro sc st query hst h hs
    exact ⟨SprintfS sc (InterfaceMap.index (DecodeInterfaceMap sc resp.Body.text).1 "code"),
      by simp only [SumoObject.SearchJobRecords, hst, h, hs, if_true]⟩

theorem error_on_status_outside_2xx_witness :
    (unauthorized.StatusCode < 200 ∨ 299 < unauthorized.StatusCode)
      ∧ sumoObj.post (Net.answering unauthorized) (sumoObj.HostURL ++ sumoObj.QueryURL)
          (some (Marshal sumoObj.SearchJobQuery)) = .ret (.ok unauthorized)
      ∧ sumoObj.SearchJob (Net.answering unauthorized)
        = .ret (some (.errorString "401 Unauthorized"), sumoObj)
      ∧ sumoObjDone.delete (Net.answering unauthorized)
          (sumoObjDone.getRequestURL ++ pathSeparator ++ doneState.ID) none
        = .ret (.ok unauthorized)
      ∧ sumoObjDone.DeleteSearchJob (Net.answering unauthorized)
        = .ret (some (.errorString "could not delete search job: 401 Unauthorized"),
            sumoObjDone) :=
  ⟨Or.inr (by decide), rfl,
    (error_on_status_outside_2xx sumoObj (Net.answering unauthorized) unauthorized
      (Or.inr (by decide))).1 rfl,
    rfl,
    (error_on_status_outside_2xx sumoObjDone (Net.answering unauthorized) unauthorized
      (Or.inr (by decide))).2.1 doneState rfl rfl⟩

/-! ## C6: the page of messages -/

/-- C6, the code at the failing input. After a first page of two messages, a second response
with one message that has only the member `_raw` leaves a page of one message whose time, host
and source name are those of the first message of the first page; and a second response
without the member `messages` leaves the first page where it was. Both calls return no
error. -/
theorem SearchJobMessages_keeps_old_fields :
    ∃ o1 o2 o3,
      sumoObjDone.SearchJobMessages (Net.answering firstPage) sampleQuery = .ret (none, o1)
      ∧ o1.SearchJobMessage.map GoSlice.toList = some [firstMessage, secondMessage]
      ∧ o1.SearchJobMessages (Net.answering secondPage) sampleQuery = .ret (none, o2)
      ∧ o2.SearchJobMessage.map GoSlice.toList
        = some [mixedMessage]
      ∧ o1.SearchJobMessages (Net.answering pageWithoutMessages) sampleQuery = .ret (none, o3)
      ∧ o3.SearchJobMessage.map GoSlice.toList = some [firstMessage, secondMessage] :=
  ⟨_, _, _, rfl, by decide, rfl, by decide, rfl, by decide⟩

/-! ## C8: the headers of a request -/

theorem canonical_ContentType : CanonicalMIMEHeaderKey "Content-Type" = "Content-Type" := by
  decide

/-- C8, the code on every session. Whatever the map `Headers` of the session holds, the request
that `get` and `post` send has the two headers `Authorization` and `Content-Type` and no other,
and the request that `delete` sends has the header `Authorization` and no other. -/
theorem requests_carry_two_headers (o : SumoObject) (net : Net) (a : SumoLogicAuthModel)
    (url : String) (body : Option Json) (query : Option StringMap) (hauth : o.Auth = some a)
    (hurl : ∀ method, net.NewRequestErr method url = none) :
    o.get net url body query = .ret (runRequest net
        { Method := "GET", URL := url, Query := query.getD [],
          Header := [("Authorization",
              ["Basic " ++ EncodeToString (a.AccessID ++ bytesOf ":" ++ a.AccessKey)]),
            ("Content-Type", ["application/json"])],
          Body := body })
      ∧ o.post net url body = .ret (runRequest net
        { Method := "POST", URL := url, Query := [],
          Header := [("Authorization",
              ["Basic " ++ EncodeToString (a.AccessID ++ bytesOf ":" ++ a.AccessKey)]),
            ("Content-Type", ["application/json"])],
          Body := body })
      ∧ o.delete net url query = .ret (runRequest net
        { Method := "DELETE", URL := url, Query := query.getD [],
          Header := [("Authorization",
              ["Basic " ++ EncodeToString (a.AccessID ++ bytesOf ":" ++ a.AccessKey)])],
          Body := none }) := by
  have hne : ("Authorization" == "Content-Type") = false := by decide
  refine ⟨?_, ?_, ?_⟩
  · simp only [SumoObject.get, NewRequest, hurl, hauth, SumoObject.encodeQuery,
      SumoLogicAuthModel.BasicAuthHeader, Header.Add, canonical_Authorization,
      canonical_ContentType, Header.index, Header.assign, List.lookup, hne, List.nil_append,
      Option.getD_none]
    rfl
  · simp only [SumoObject.post, NewRequest, hurl, hauth,
      SumoLogicAuthModel.BasicAuthHeader, Header.Add, canonical_Authorization,
      canonical_ContentType, Header.index, Header.assign, List.lookup, hne, List.nil_append,
      Option.getD_none]
    rfl
  · simp only [SumoObject.delete, NewRequest, hurl, hauth, SumoObject.encodeQuery,
      SumoLogicAuthModel.BasicAuthHeader, Header.Add, canonical_Authorization,
      Header.index, Header.assign, List.lookup, List.nil_append, Option.getD_none]

theorem requests_carry_two_headers_witness :
    sumoObjWithHeader.Headers = some [("X-Test", "1")]
      ∧ sumoObjWithHeader.Auth = some sampleAuth
      ∧ sumoObjWithHeader.get (Net.answering statusOK) "https://h/p" none none
        = .ret (runRequest (Net.answering statusOK)
            { Method := "GET", URL := "https://h/p", Query := [],
              Header := [("Authorization", ["Basic aWQ6a2V5"]),
                ("Content-Type", ["application/json"])],
              Body := none })
      ∧ Header.Values [("Authorization", ["Basic aWQ6a2V5"]),
          ("Content-Type", ["application/json"])] "X-Test" = [] := by
  refine ⟨rfl, rfl, ?_, by decide⟩
  rw [(requests_carry_two_headers sumoObjWithHeader (Net.answering statusOK) sampleAuth
    "https://h/p" none none rfl (fun _ => rfl)).1]
  rfl

/-! ## C10: the credentials and the URLs of the session -/

/-- C10, the code at the failing input. A response to `SearchJobMessages` whose body has the
members `Auth`, `HostURL` and `QueryURL` replaces the credentials, the host URL and the query
URL of the session, and the call returns no error. -/
theorem SearchJobMessages_overwrites_credentials :
    ∃ o1, sumoObjDone.SearchJobMessages (Net.answering hostilePage) sampleQuery = .ret (none, o1)
      ∧ sumoObjDone.Auth = some { AccessID := bytesOf "id", AccessKey := bytesOf "key" }
      ∧ o1.Auth = some { AccessID := bytesOf "intruder", AccessKey := bytesOf "secret" }
      ∧ o1.Auth ≠ sumoObjDone.Auth
      ∧ sumoObjDone.HostURL = "https://api.us2.sumologic.com/api/v1"
      ∧ o1.HostURL = "https://evil.example"
      ∧ sumoObjDone.QueryURL = "/search/jobs"
      ∧ o1.QueryURL = "/collect" :=
  ⟨_, rfl, rfl, by decide, by decide, rfl, by decide, rfl, by decide⟩

/-- The calls that do not decode a body into the whole session leave the credentials, the host
URL and the query URL as they were (`SearchJobRecords` returns no session: it assigns nothing). -/
theorem other_operations_keep_credentials (o : SumoObject) (net : Net) :
    (∀ err o1, o.SearchJob net = .ret (err, o1) →
        o1.Auth = o.Auth ∧ o1.HostURL = o.HostURL ∧ o1.QueryURL = o.QueryURL)
      ∧ (∀ err o1, o.SearchJobStatus net = .ret (err, o1) →
        o1.Auth = o.Auth ∧ o1.HostURL = o.HostURL ∧ o1.QueryURL = o.QueryURL)
      ∧ (∀ err o1, o.DeleteSearchJob net = .ret (err, o1) →
        o1.Auth = o.Auth ∧ o1.HostURL = o.HostURL ∧ o1.QueryURL = o.QueryURL) := by
  refine ⟨?_, ?_, ?_⟩
  · intro err o1 h
    unfold SumoObject.SearchJob at h
    simp only at h
    split at h
    · cases h
    · cases h; exact ⟨rfl, rfl, rfl⟩
    · split at h
      · split at h <;> (cases h; exact ⟨rfl, rfl, rfl⟩)
      · cases h; exact ⟨rfl, rfl, rfl⟩
  · intro err o1 h
    unfold SumoObject.SearchJobStatus at h
    split at h
    · cases h
    · split at h
      · cases h
      · cases h; exact ⟨rfl, rfl, rfl⟩
      · split at h
        · cases h; exact ⟨rfl, rfl, rfl⟩
        · simp only at h
          split at h <;> (cases h; exact ⟨rfl, rfl, rfl⟩)
  · intro err o1 h
    unfold SumoObject.DeleteSearchJob at h
    split at h
    · cases h
    · split at h
      · cases h
      · cases h; exact ⟨rfl, rfl, rfl⟩
      · split at h <;> (cases h; exact ⟨rfl, rfl, rfl⟩)

end Dohyo
